import Mathlib

/-!
Verification of the reconciliation core of gramps-web-sync.

The embedding follows `webapisync.py` (class `WebApiSyncDiffHandler`,
function `WebApiSyncTool.commit`) and `webapihandler.py`
(`WebApiHandler.download_xml`).  A record is a Gramps primary object,
reduced to the attributes the reconciliation logic reads: its handle,
class name, change timestamp, display id (`gramps_id`) and, standing in
for the remaining type-specific payload, one optional scalar field and
one list-valued field.
-/

/-- A Gramps primary object as seen by the sync logic: `handle` is the
stable identifier, `cls` the class name (`Person`, `Family`, ...),
`change` the last-modified timestamp, `gramps_id` the display
identifier, and `scalar`/`attrs` stand for the remaining payload
(one optional scalar field, one list-like field). -/
structure Obj where
  handle : String
  cls : String
  change : Nat
  gramps_id : Option String
  scalar : Option Nat
  attrs : List Nat
deriving DecidableEq, Repr

/-- The ten tracked object types (`OBJ_LST` in `webapisync.py`). -/
def OBJ_LST : List String :=
  ["Family", "Person", "Citation", "Event", "Media", "Note", "Place",
   "Repository", "Source", "Tag"]

def A_ADD_LOC : String := "add_local"
def A_ADD_REM : String := "add_remote"
def A_DEL_LOC : String := "del_local"
def A_DEL_REM : String := "del_remote"
def A_UPD_LOC : String := "upd_local"
def A_UPD_REM : String := "upd_remote"
def A_MRG_REM : String := "mrg_remote"

/-- An action tuple `(type, handle, class_name, obj1, obj2)` as in
`webapisync.py` (`Action = Tuple[int, str, str, Optional[GrampsObject],
Optional[GrampsObject]]`). -/
abbrev SyncAction := String × String × String × Option Obj × Option Obj

/-- A database is the list of its records; `find?` is lookup by handle
(`get_X_from_handle`, `None` when the handle is absent). -/
def find? (db : List Obj) (h : String) : Option Obj :=
  List.find? (fun o => o.handle == h) db

/-- Modelled from the spec: the changed pairs of `diff_dbs`
(`gramps.gen.merge.diff`, external library) as projected by
`WebApiSyncDiffHandler.differences` — pairs of records drawn one from
each store, with equal handle and differing content (structural
inequality, timestamp included). -/
def differences (db1 db2 : List Obj) : List (Obj × Obj) :=
  db1.filterMap fun o1 =>
    (find? db2 o1.handle).bind fun o2 =>
      if o1 = o2 then none else some (o1, o2)

/-- Modelled from the spec: the `missing from db1` component of
`diff_dbs` as projected by `WebApiSyncDiffHandler.missing_from_db1` —
records present only in db2. -/
def missing_from_db1 (db1 db2 : List Obj) : List Obj :=
  db2.filter fun o => (find? db1 o.handle).isNone

/-- Modelled from the spec: the `missing from db2` component of
`diff_dbs` as projected by `WebApiSyncDiffHandler.missing_from_db2` —
records present only in db1. -/
def missing_from_db2 (db1 db2 : List Obj) : List Obj :=
  db1.filter fun o => (find? db2 o.handle).isNone

/-- Handles of all db1 objects of the given class
(`get_%s_handles` in `_get_latest_common_timestamp`). -/
def class_handles (db1 : List Obj) (c : String) : List String :=
  (db1.filter fun o => o.cls == c).map Obj.handle

/-- Handles, of the given class, missing in db2
(`missing_in_db2` in `_get_latest_common_timestamp`). -/
def missing_handles (db1 db2 : List Obj) (c : String) : List String :=
  ((missing_from_db2 db1 db2).filter fun o => o.cls == c).map Obj.handle

/-- Handles, of the given class, of objects that are different
(`different` in `_get_latest_common_timestamp`). -/
def different_handles (db1 db2 : List Obj) (c : String) : List String :=
  ((differences db1 db2).filter fun p => p.1.cls == c).map fun p => p.1.handle

/-- Handles of all objects of the given class that are the same in both
stores (`same_handles = all_handles - missing_in_db2 - different`). -/
def same_handles (db1 db2 : List Obj) (c : String) : List String :=
  (class_handles db1 c).filter fun h =>
    !(missing_handles db1 db2 c).contains h
      && !(different_handles db1 db2 c).contains h

/-- `WebApiSyncDiffHandler._get_latest_common_timestamp`: the timestamp
of the latest common object of the given class, `none` when no common
object of that class exists. -/
def _get_latest_common_timestamp (db1 db2 : List Obj) (c : String) :
    Option Nat :=
  let sh := same_handles db1 db2 c
  if sh.isEmpty then none
  else some (sh.foldl (fun d h => max d (((find? db1 h).map Obj.change).getD 0)) 0)

/-- `WebApiSyncDiffHandler.get_latest_common_timestamp`: the maximum over
all tracked classes of the per-class latest common timestamp, a missing
per-class value counting as 0. -/
def get_latest_common_timestamp (db1 db2 : List Obj) : Nat :=
  (OBJ_LST.map fun c => (_get_latest_common_timestamp db1 db2 c).getD 0).foldl max 0

/-- `WebApiSyncDiffHandler.modified_in_db1`: changed pairs whose db1 side
is newer than the baseline and whose db2 side is not. -/
def modified_in_db1 (db1 db2 : List Obj) (t : Nat) : List (Obj × Obj) :=
  (differences db1 db2).filter fun p => t < p.1.change && p.2.change ≤ t

/-- `WebApiSyncDiffHandler.modified_in_db2`: changed pairs whose db2 side
is newer than the baseline and whose db1 side is not. -/
def modified_in_db2 (db1 db2 : List Obj) (t : Nat) : List (Obj × Obj) :=
  (differences db1 db2).filter fun p => p.1.change ≤ t && t < p.2.change

/-- `WebApiSyncDiffHandler.modified_in_both`: the remaining changed pairs
(set difference `differences - modified_in_db1 - modified_in_db2`). -/
def modified_in_both (db1 db2 : List Obj) (t : Nat) : List (Obj × Obj) :=
  (differences db1 db2).filter fun p =>
    !(modified_in_db1 db1 db2 t).contains p
      && !(modified_in_db2 db1 db2 t).contains p

/-- `WebApiSyncDiffHandler.added_to_db1`: objects missing from db2 whose
timestamp is newer than the baseline. -/
def added_to_db1 (db1 db2 : List Obj) (t : Nat) : List Obj :=
  (missing_from_db2 db1 db2).filter fun o => t < o.change

/-- `WebApiSyncDiffHandler.added_to_db2`: objects missing from db1 whose
timestamp is newer than the baseline. -/
def added_to_db2 (db1 db2 : List Obj) (t : Nat) : List Obj :=
  (missing_from_db1 db1 db2).filter fun o => t < o.change

/-- `WebApiSyncDiffHandler.deleted_from_db1`
(set difference `missing_from_db1 - added_to_db2`). -/
def deleted_from_db1 (db1 db2 : List Obj) (t : Nat) : List Obj :=
  (missing_from_db1 db1 db2).filter fun o =>
    !(added_to_db2 db1 db2 t).contains o

/-- `WebApiSyncDiffHandler.deleted_from_db2`
(set difference `missing_from_db2 - added_to_db1`). -/
def deleted_from_db2 (db1 db2 : List Obj) (t : Nat) : List Obj :=
  (missing_from_db2 db1 db2).filter fun o =>
    !(added_to_db1 db1 db2 t).contains o

/-- `WebApiSyncDiffHandler.get_actions`, parameterized by the stored
baseline `self._latest_common_timestamp`. -/
def get_actions (db1 db2 : List Obj) (t : Nat) : List SyncAction :=
  ((modified_in_both db1 db2 t).map fun p =>
      (A_MRG_REM, p.1.handle, p.1.cls, some p.1, some p.2))
    ++ ((added_to_db1 db1 db2 t).map fun o =>
      (A_ADD_REM, o.handle, o.cls, some o, none))
    ++ ((added_to_db2 db1 db2 t).map fun o =>
      (A_ADD_LOC, o.handle, o.cls, none, some o))
    ++ ((deleted_from_db1 db1 db2 t).map fun o =>
      (A_DEL_REM, o.handle, o.cls, none, some o))
    ++ ((deleted_from_db2 db1 db2 t).map fun o =>
      (A_DEL_LOC, o.handle, o.cls, some o, none))
    ++ ((modified_in_db1 db1 db2 t).map fun p =>
      (A_UPD_REM, p.1.handle, p.1.cls, some p.1, some p.2))
    ++ ((modified_in_db2 db1 db2 t).map fun p =>
      (A_UPD_LOC, p.1.handle, p.1.cls, some p.1, some p.2))

/-- The action list of one reconciliation run: `get_actions` evaluated at
the baseline computed in `WebApiSyncDiffHandler.__init__`. -/
def sync_actions (db1 db2 : List Obj) : List SyncAction :=
  get_actions db1 db2 (get_latest_common_timestamp db1 db2)

/-- Modelled from the spec: the persisted-baseline branch of the Baseline
Resolver.  The configuration plumbing that hands a persisted baseline to
the diff handler is not part of the sources embedded here; the spec's
policy is "if a persisted baseline is supplied and non-zero, use it
verbatim ... Otherwise compute the heuristic baseline". -/
def resolve_baseline (persisted : Option Nat) (db1 db2 : List Obj) : Nat :=
  match persisted with
  | some t => if t ≠ 0 then t else get_latest_common_timestamp db1 db2
  | none => get_latest_common_timestamp db1 db2

/-- The identical witnesses of a given class, in the words of the spec:
records of that class present in both stores with identical content. -/
def witnesses (db1 db2 : List Obj) (c : String) : List Obj :=
  db1.filter fun o => o.cls == c && decide (find? db2 o.handle = some o)

/-- The heuristic baseline in the words of the spec: the maximum over all
tracked classes of the maximum `change` among that class's identical
witnesses, a class without witnesses contributing nothing (0). -/
def witness_baseline (db1 db2 : List Obj) : Nat :=
  (OBJ_LST.map fun c => ((witnesses db1 db2 c).map Obj.change).foldl max 0).foldl max 0

/-- Modelled from the spec: the store accessor `remove(type, handle, txn)`
(`remove_%s` in `commit_action`). -/
def db_remove (db : List Obj) (h : String) : List Obj :=
  db.filter fun o => o.handle != h

/-- Modelled from the spec: the store accessor `add(type, Record, txn)`
(`add_%s` in `commit_action`). -/
def db_add (db : List Obj) (o : Obj) : List Obj :=
  db ++ [o]

/-- Modelled from the spec: the store accessor `update/"commit"`
(`commit_%s` in `commit_action`): overwrite the record with the same
handle, inserting the record when the handle is absent. -/
def db_commit (db : List Obj) (o : Obj) : List Obj :=
  if db.any (fun x => x.handle == o.handle) then
    db.map fun x => if x.handle == o.handle then o else x
  else db ++ [o]

/-- Modelled from the spec: the field-level merge convention of the
Gramps object `merge` method (external library), as described in §4.4:
fields absent on the incoming side are taken from the base, conflicting
scalar fields keep the base's value, list-like fields are unioned; the
base's handle, class and timestamp are kept. -/
def Obj.merge (base incoming : Obj) : Obj :=
  { base with
    gramps_id := match base.gramps_id with
      | some g => some g
      | none => incoming.gramps_id
    scalar := match base.scalar with
      | some v => some v
      | none => incoming.scalar
    attrs := base.attrs ++ incoming.attrs.filter fun a => !base.attrs.contains a }

/-- The merge procedure in the words of the claim under review: start
from the remote record as the base, strip the *base's* display
identifier, then merge the local record into it.  Kept for comparison
with what `commit_action` actually computes. -/
def merged_spec (obj1 obj2 : Obj) : Obj :=
  Obj.merge { obj2 with gramps_id := none } obj1

/-- The merged record `commit_action` actually computes for a conflict:
the remote record `obj2` as base, merged with the *local* record
`obj1` whose `gramps_id` was set to `None`. -/
def merged_code (obj1 obj2 : Obj) : Obj :=
  Obj.merge obj2 { obj1 with gramps_id := none }

/-- `WebApiSyncDiffHandler.commit_action`: apply one action to the pair
of stores (db1 = local, db2 = remote).  Transactions are implicit: the
state is the pair of store contents. -/
def commit_action (a : SyncAction) (dbs : List Obj × List Obj) :
    List Obj × List Obj :=
  let (typ, handle, _obj_type, obj1, obj2) := a
  if typ = A_DEL_LOC then (db_remove dbs.1 handle, dbs.2)
  else if typ = A_DEL_REM then (dbs.1, db_remove dbs.2 handle)
  else if typ = A_ADD_LOC then
    match obj2 with
    | some o => (db_add dbs.1 o, dbs.2)
    | none => dbs
  else if typ = A_ADD_REM then
    match obj1 with
    | some o => (dbs.1, db_add dbs.2 o)
    | none => dbs
  else if typ = A_UPD_LOC then
    match obj2 with
    | some o => (db_commit dbs.1 o, dbs.2)
    | none => dbs
  else if typ = A_UPD_REM then
    match obj1 with
    | some o => (dbs.1, db_commit dbs.2 o)
    | none => dbs
  else if typ = A_MRG_REM then
    match obj1, obj2 with
    | some o1, some o2 =>
      (db_commit dbs.1 (merged_code o1 o2), db_commit dbs.2 (merged_code o1 o2))
    | _, _ => dbs
  else dbs

/-- `WebApiSyncDiffHandler.commit_actions`: apply every action in order. -/
def commit_actions (actions : List SyncAction) (dbs : List Obj × List Obj) :
    List Obj × List Obj :=
  actions.foldl (fun d a => commit_action a d) dbs

/-- Modelled from the spec: one pass of the guarded transaction pair.
Actions are applied in order; `fails` is the store-level error oracle
(§7 `StoreWriteError`): when an action fails the pass aborts with
`none`. -/
def commit_actions_run (fails : SyncAction → Bool) :
    List SyncAction → List Obj × List Obj → Option (List Obj × List Obj)
  | [], dbs => some dbs
  | a :: rest, dbs =>
    if fails a then none
    else commit_actions_run fails rest (commit_action a dbs)

/-- Modelled from the spec: `WebApiSyncTool.commit` runs the whole batch
inside one `DbTxn` per store; on a store-level error both transactions
roll back, leaving both stores exactly as before the batch. -/
def commit_with_txn (fails : SyncAction → Bool) (actions : List SyncAction)
    (dbs : List Obj × List Obj) : List Obj × List Obj :=
  match commit_actions_run fails actions dbs with
  | some d => d
  | none => dbs

/-- Result of one download attempt in `WebApiHandler.download_xml`:
either the downloaded file or an HTTP error code. -/
inductive DlResult where
  | ok (path : String)
  | httpError (code : Nat)
deriving DecidableEq, Repr

/-- One download attempt without retry (`download_xml(retry=False)`):
the oracle maps the current access-token version to the server's
response; the token version is returned alongside the path. -/
def download_xml_noretry (oracle : Nat → DlResult) (tok : Nat) :
    Except Nat (String × Nat) :=
  match oracle tok with
  | .ok p => .ok (p, tok)
  | .httpError code => .error code

/-- `WebApiHandler.download_xml`: on an HTTP 401 error with `retry` set,
fetch a fresh token (`tok + 1`) and retry once with `retry=False`; any
other error, or any error on the retry, is raised to the caller. -/
def download_xml (oracle : Nat → DlResult) (tok : Nat) (retry : Bool) :
    Except Nat (String × Nat) :=
  match oracle tok with
  | .ok p => .ok (p, tok)
  | .httpError code =>
    if code = 401 ∧ retry then download_xml_noretry oracle (tok + 1)
    else .error code

/-- Sample record: a local-only person whose `change` timestamp is 0. -/
def sample_stale : Obj := ⟨"h0", "Person", 0, some "I000", none, []⟩

/-- Sample record: the local side of a conflicting pair. -/
def sample_loc : Obj := ⟨"h1", "Person", 5, some "I001", some 1, [1]⟩

/-- Sample record: the remote side of a conflicting pair. -/
def sample_rem : Obj := ⟨"h1", "Person", 7, some "I002", some 2, [2]⟩

/-- Sample record: a record identical in both stores (a witness). -/
def sample_wit : Obj := ⟨"h2", "Person", 5, some "I003", none, []⟩

/-- Sample record: a local-only record newer than the baseline. -/
def sample_new : Obj := ⟨"h3", "Event", 9, some "E001", none, []⟩

/-- Sample download oracle: the server answers 401 to the initial token
(version 0) and serves the file once the token was refreshed. -/
def sample_oracle : Nat → DlResult :=
  fun tok => if tok = 0 then .httpError 401 else .ok "remote.gramps"

/-- A concrete two-action batch used by the transaction witness. -/
def sample_batch : List SyncAction :=
  [(A_ADD_REM, "h3", "Event", some sample_new, none),
   (A_DEL_LOC, "h0", "Person", some sample_stale, none)]

/-- A store-error oracle that fails exactly the delete action of
`sample_batch`. -/
def sample_fails (a : SyncAction) : Bool := a.1 == A_DEL_LOC

/-! Membership characterizations of the diff sets and the action list. -/

theorem mem_differences {db1 db2 : List Obj} {o1 o2 : Obj} :
    (o1, o2) ∈ differences db1 db2 ↔
      o1 ∈ db1 ∧ find? db2 o1.handle = some o2 ∧ o1 ≠ o2 := by
  constructor
  · intro h
    simp only [differences, List.mem_filterMap, Option.bind_eq_some] at h
    obtain ⟨a, ha, b, hb, hif⟩ := h
    by_cases hab : a = b
    · simp [hab] at hif
    · simp only [hab, if_false, Option.some.injEq, Prod.mk.injEq] at hif
      obtain ⟨rfl, rfl⟩ := hif
      exact ⟨ha, hb, hab⟩
  · rintro ⟨h1, h2, h3⟩
    simp only [differences, List.mem_filterMap, Option.bind_eq_some]
    exact ⟨o1, h1, o2, h2, by simp [h3]⟩

theorem mem_missing_from_db1 {db1 db2 : List Obj} {o : Obj} :
    o ∈ missing_from_db1 db1 db2 ↔ o ∈ db2 ∧ find? db1 o.handle = none := by
  simp [missing_from_db1, List.mem_filter, Option.isNone_iff_eq_none]

theorem mem_missing_from_db2 {db1 db2 : List Obj} {o : Obj} :
    o ∈ missing_from_db2 db1 db2 ↔ o ∈ db1 ∧ find? db2 o.handle = none := by
  simp [missing_from_db2, List.mem_filter, Option.isNone_iff_eq_none]

theorem mem_modified_in_db1 {db1 db2 : List Obj} {t : Nat} {p : Obj × Obj} :
    p ∈ modified_in_db1 db1 db2 t ↔
      p ∈ differences db1 db2 ∧ t < p.1.change ∧ p.2.change ≤ t := by
  simp [modified_in_db1, List.mem_filter, and_assoc]

theorem mem_modified_in_db2 {db1 db2 : List Obj} {t : Nat} {p : Obj × Obj} :
    p ∈ modified_in_db2 db1 db2 t ↔
      p ∈ differences db1 db2 ∧ p.1.change ≤ t ∧ t < p.2.change := by
  simp [modified_in_db2, List.mem_filter, and_assoc]

theorem mem_modified_in_both {db1 db2 : List Obj} {t : Nat} {p : Obj × Obj} :
    p ∈ modified_in_both db1 db2 t ↔
      p ∈ differences db1 db2 ∧ ¬(t < p.1.change ∧ p.2.change ≤ t)
        ∧ ¬(p.1.change ≤ t ∧ t < p.2.change) := by
  simp only [modified_in_both, List.mem_filter, Bool.and_eq_true,
    Bool.not_eq_true', List.contains_eq_any_beq, Bool.eq_false_iff]
  constructor
  · rintro ⟨hd, h1, h2⟩
    refine ⟨hd, fun hc => h1 ?_, fun hc => h2 ?_⟩
    · exact List.any_eq_true.mpr ⟨p, mem_modified_in_db1.mpr ⟨hd, hc⟩, by simp⟩
    · exact List.any_eq_true.mpr ⟨p, mem_modified_in_db2.mpr ⟨hd, hc⟩, by simp⟩
  · rintro ⟨hd, h1, h2⟩
    refine ⟨hd, fun hc => ?_, fun hc => ?_⟩
    · obtain ⟨q, hq, hpq⟩ := List.any_eq_true.mp hc
      obtain rfl : p = q := by simpa using hpq
      exact h1 (mem_modified_in_db1.mp hq).2
    · obtain ⟨q, hq, hpq⟩ := List.any_eq_true.mp hc
      obtain rfl : p = q := by simpa using hpq
      exact h2 (mem_modified_in_db2.mp hq).2

theorem mem_added_to_db1 {db1 db2 : List Obj} {t : Nat} {o : Obj} :
    o ∈ added_to_db1 db1 db2 t ↔ o ∈ missing_from_db2 db1 db2 ∧ t < o.change := by
  simp [added_to_db1, List.mem_filter]

theorem mem_added_to_db2 {db1 db2 : List Obj} {t : Nat} {o : Obj} :
    o ∈ added_to_db2 db1 db2 t ↔ o ∈ missing_from_db1 db1 db2 ∧ t < o.change := by
  simp [added_to_db2, List.mem_filter]

theorem mem_deleted_from_db1 {db1 db2 : List Obj} {t : Nat} {o : Obj} :
    o ∈ deleted_from_db1 db1 db2 t ↔
      o ∈ missing_from_db1 db1 db2 ∧ o.change ≤ t := by
  simp only [deleted_from_db1, List.mem_filter, Bool.not_eq_true',
    List.contains_eq_any_beq, Bool.eq_false_iff]
  constructor
  · rintro ⟨hm, hn⟩
    refine ⟨hm, Nat.le_of_not_lt fun hc => hn ?_⟩
    exact List.any_eq_true.mpr ⟨o, mem_added_to_db2.mpr ⟨hm, hc⟩, by simp⟩
  · rintro ⟨hm, hle⟩
    refine ⟨hm, fun hc => ?_⟩
    obtain ⟨q, hq, hpq⟩ := List.any_eq_true.mp hc
    obtain rfl : o = q := by simpa using hpq
    exact Nat.not_lt.mpr hle (mem_added_to_db2.mp hq).2

theorem mem_deleted_from_db2 {db1 db2 : List Obj} {t : Nat} {o : Obj} :
    o ∈ deleted_from_db2 db1 db2 t ↔
      o ∈ missing_from_db2 db1 db2 ∧ o.change ≤ t := by
  simp only [deleted_from_db2, List.mem_filter, Bool.not_eq_true',
    List.contains_eq_any_beq, Bool.eq_false_iff]
  constructor
  · rintro ⟨hm, hn⟩
    refine ⟨hm, Nat.le_of_not_lt fun hc => hn ?_⟩
    exact List.any_eq_true.mpr ⟨o, mem_added_to_db1.mpr ⟨hm, hc⟩, by simp⟩
  · rintro ⟨hm, hle⟩
    refine ⟨hm, fun hc => ?_⟩
    obtain ⟨q, hq, hpq⟩ := List.any_eq_true.mp hc
    obtain rfl : o = q := by simpa using hpq
    exact Nat.not_lt.mpr hle (mem_added_to_db1.mp hq).2

theorem mrg_mem_get_actions {db1 db2 : List Obj} {t : Nat} {o1 o2 : Obj} :
    (A_MRG_REM, o1.handle, o1.cls, some o1, some o2) ∈ get_actions db1 db2 t ↔
      (o1, o2) ∈ modified_in_both db1 db2 t := by
  simp only [get_actions, List.mem_append, List.mem_map, A_MRG_REM, A_ADD_REM,
    A_ADD_LOC, A_DEL_REM, A_DEL_LOC, A_UPD_REM, A_UPD_LOC, Prod.mk.injEq,
    Option.some.injEq, String.reduceEq, false_and, and_false, exists_false,
    or_false, false_or, reduceCtorEq, true_and, and_true]
  constructor
  · rintro ⟨p, hp, -, -, h1, h2⟩
    rwa [show p = (o1, o2) from Prod.ext h1 h2] at hp
  · intro hp
    exact ⟨(o1, o2), hp, rfl, rfl, rfl, rfl⟩

theorem upd_rem_mem_get_actions {db1 db2 : List Obj} {t : Nat} {o1 o2 : Obj} :
    (A_UPD_REM, o1.handle, o1.cls, some o1, some o2) ∈ get_actions db1 db2 t ↔
      (o1, o2) ∈ modified_in_db1 db1 db2 t := by
  simp only [get_actions, List.mem_append, List.mem_map, A_MRG_REM, A_ADD_REM,
    A_ADD_LOC, A_DEL_REM, A_DEL_LOC, A_UPD_REM, A_UPD_LOC, Prod.mk.injEq,
    Option.some.injEq, String.reduceEq, false_and, and_false, exists_false,
    or_false, false_or, reduceCtorEq, true_and, and_true]
  constructor
  · rintro ⟨p, hp, -, -, h1, h2⟩
    rwa [show p = (o1, o2) from Prod.ext h1 h2] at hp
  · intro hp
    exact ⟨(o1, o2), hp, rfl, rfl, rfl, rfl⟩

theorem upd_loc_mem_get_actions {db1 db2 : List Obj} {t : Nat} {o1 o2 : Obj} :
    (A_UPD_LOC, o1.handle, o1.cls, some o1, some o2) ∈ get_actions db1 db2 t ↔
      (o1, o2) ∈ modified_in_db2 db1 db2 t := by
  simp only [get_actions, List.mem_append, List.mem_map, A_MRG_REM, A_ADD_REM,
    A_ADD_LOC, A_DEL_REM, A_DEL_LOC, A_UPD_REM, A_UPD_LOC, Prod.mk.injEq,
    Option.some.injEq, String.reduceEq, false_and, and_false, exists_false,
    or_false, false_or, reduceCtorEq, true_and, and_true]
  constructor
  · rintro ⟨p, hp, -, -, h1, h2⟩
    rwa [show p = (o1, o2) from Prod.ext h1 h2] at hp
  · intro hp
    exact ⟨(o1, o2), hp, rfl, rfl, rfl, rfl⟩

theorem add_rem_mem_get_actions {db1 db2 : List Obj} {t : Nat} {o : Obj} :
    (A_ADD_REM, o.handle, o.cls, some o, none) ∈ get_actions db1 db2 t ↔
      o ∈ added_to_db1 db1 db2 t := by
  simp only [get_actions, List.mem_append, List.mem_map, A_MRG_REM, A_ADD_REM,
    A_ADD_LOC, A_DEL_REM, A_DEL_LOC, A_UPD_REM, A_UPD_LOC, Prod.mk.injEq,
    Option.some.injEq, String.reduceEq, false_and, and_false, exists_false,
    or_false, false_or, reduceCtorEq, true_and, and_true]
  constructor
  · rintro ⟨q, hq, -, -, rfl⟩
    exact hq
  · intro hq
    exact ⟨o, hq, rfl, rfl, rfl⟩

theorem add_loc_mem_get_actions {db1 db2 : List Obj} {t : Nat} {o : Obj} :
    (A_ADD_LOC, o.handle, o.cls, none, some o) ∈ get_actions db1 db2 t ↔
      o ∈ added_to_db2 db1 db2 t := by
  simp only [get_actions, List.mem_append, List.mem_map, A_MRG_REM, A_ADD_REM,
    A_ADD_LOC, A_DEL_REM, A_DEL_LOC, A_UPD_REM, A_UPD_LOC, Prod.mk.injEq,
    Option.some.injEq, String.reduceEq, false_and, and_false, exists_false,
    or_false, false_or, reduceCtorEq, true_and, and_true]
  constructor
  · rintro ⟨q, hq, -, -, rfl⟩
    exact hq
  · intro hq
    exact ⟨o, hq, rfl, rfl, rfl⟩

theorem del_rem_mem_get_actions {db1 db2 : List Obj} {t : Nat} {o : Obj} :
    (A_DEL_REM, o.handle, o.cls, none, some o) ∈ get_actions db1 db2 t ↔
      o ∈ deleted_from_db1 db1 db2 t := by
  simp only [get_actions, List.mem_append, List.mem_map, A_MRG_REM, A_ADD_REM,
    A_ADD_LOC, A_DEL_REM, A_DEL_LOC, A_UPD_REM, A_UPD_LOC, Prod.mk.injEq,
    Option.some.injEq, String.reduceEq, false_and, and_false, exists_false,
    or_false, false_or, reduceCtorEq, true_and, and_true]
  constructor
  · rintro ⟨q, hq, -, -, rfl⟩
    exact hq
  · intro hq
    exact ⟨o, hq, rfl, rfl, rfl⟩

theorem del_loc_mem_get_actions {db1 db2 : List Obj} {t : Nat} {o : Obj} :
    (A_DEL_LOC, o.handle, o.cls, some o, none) ∈ get_actions db1 db2 t ↔
      o ∈ deleted_from_db2 db1 db2 t := by
  simp only [get_actions, List.mem_append, List.mem_map, A_MRG_REM, A_ADD_REM,
    A_ADD_LOC, A_DEL_REM, A_DEL_LOC, A_UPD_REM, A_UPD_LOC, Prod.mk.injEq,
    Option.some.injEq, String.reduceEq, false_and, and_false, exists_false,
    or_false, false_or, reduceCtorEq, true_and, and_true]
  constructor
  · rintro ⟨q, hq, -, -, rfl⟩
    exact hq
  · intro hq
    exact ⟨o, hq, rfl, rfl, rfl⟩

/-- C1: for every `changed` pair, if both records' `changed_at` are
strictly greater than the baseline the pair is classified as a conflict
(`A_MRG_REM`) and never as a one-sided update; if only the local
record's `changed_at` exceeds the baseline it is classified
`A_UPD_REM`; if only the remote record's does, `A_UPD_LOC`. -/
theorem claim_C1 (db1 db2 : List Obj) (t : Nat) (o1 o2 : Obj)
    (hd : (o1, o2) ∈ differences db1 db2) :
    (t < o1.change → t < o2.change →
      (A_MRG_REM, o1.handle, o1.cls, some o1, some o2) ∈ get_actions db1 db2 t ∧
      (A_UPD_REM, o1.handle, o1.cls, some o1, some o2) ∉ get_actions db1 db2 t ∧
      (A_UPD_LOC, o1.handle, o1.cls, some o1, some o2) ∉ get_actions db1 db2 t) ∧
    (t < o1.change → o2.change ≤ t →
      (A_UPD_REM, o1.handle, o1.cls, some o1, some o2) ∈ get_actions db1 db2 t) ∧
    (o1.change ≤ t → t < o2.change →
      (A_UPD_LOC, o1.handle, o1.cls, some o1, some o2) ∈ get_actions db1 db2 t) := by
  refine ⟨fun h1 h2 => ⟨?_, ?_, ?_⟩, fun h1 h2 => ?_, fun h1 h2 => ?_⟩
  · exact mrg_mem_get_actions.mpr
      (mem_modified_in_both.mpr ⟨hd, by simp; omega, by simp; omega⟩)
  · intro hmem
    obtain ⟨-, -, hb⟩ := mem_modified_in_db1.mp (upd_rem_mem_get_actions.mp hmem)
    exact absurd (show o2.change ≤ t from hb) (by omega)
  · intro hmem
    obtain ⟨-, ha, -⟩ := mem_modified_in_db2.mp (upd_loc_mem_get_actions.mp hmem)
    exact absurd (show o1.change ≤ t from ha) (by omega)
  · exact upd_rem_mem_get_actions.mpr (mem_modified_in_db1.mpr ⟨hd, h1, h2⟩)
  · exact upd_loc_mem_get_actions.mpr (mem_modified_in_db2.mpr ⟨hd, h1, h2⟩)

/-- Witness for C1 on concrete stores: a pair changed on both sides after
baseline 3 is classified as a conflict. -/
theorem claim_C1_witness :
    (A_MRG_REM, sample_loc.handle, sample_loc.cls, some sample_loc,
      some sample_rem) ∈ get_actions [sample_loc] [sample_rem] 3 := by
  have h := claim_C1 [sample_loc] [sample_rem] 3 sample_loc sample_rem (by decide)
  exact (h.1 (by decide) (by decide)).1

/-- C2: a record present only locally (in `missing_from_db2`) is
classified `A_ADD_REM` when newer than the baseline and `A_DEL_LOC`
otherwise; mirrored, a record present only remotely (in
`missing_from_db1`) is classified `A_ADD_LOC` when newer than the
baseline and `A_DEL_REM` otherwise. -/
theorem claim_C2 (db1 db2 : List Obj) (t : Nat) (o : Obj) :
    (o ∈ missing_from_db2 db1 db2 →
      (t < o.change →
        (A_ADD_REM, o.handle, o.cls, some o, none) ∈ get_actions db1 db2 t ∧
        (A_DEL_LOC, o.handle, o.cls, some o, none) ∉ get_actions db1 db2 t) ∧
      (o.change ≤ t →
        (A_DEL_LOC, o.handle, o.cls, some o, none) ∈ get_actions db1 db2 t ∧
        (A_ADD_REM, o.handle, o.cls, some o, none) ∉ get_actions db1 db2 t)) ∧
    (o ∈ missing_from_db1 db1 db2 →
      (t < o.change →
        (A_ADD_LOC, o.handle, o.cls, none, some o) ∈ get_actions db1 db2 t ∧
        (A_DEL_REM, o.handle, o.cls, none, some o) ∉ get_actions db1 db2 t) ∧
      (o.change ≤ t →
        (A_DEL_REM, o.handle, o.cls, none, some o) ∈ get_actions db1 db2 t ∧
        (A_ADD_LOC, o.handle, o.cls, none, some o) ∉ get_actions db1 db2 t)) := by
  refine ⟨fun hm => ⟨fun hlt => ⟨?_, ?_⟩, fun hle => ⟨?_, ?_⟩⟩,
    fun hm => ⟨fun hlt => ⟨?_, ?_⟩, fun hle => ⟨?_, ?_⟩⟩⟩
  · exact add_rem_mem_get_actions.mpr (mem_added_to_db1.mpr ⟨hm, hlt⟩)
  · intro hmem
    obtain ⟨-, hb⟩ := mem_deleted_from_db2.mp (del_loc_mem_get_actions.mp hmem)
    exact absurd hb (by omega)
  · exact del_loc_mem_get_actions.mpr (mem_deleted_from_db2.mpr ⟨hm, hle⟩)
  · intro hmem
    obtain ⟨-, hb⟩ := mem_added_to_db1.mp (add_rem_mem_get_actions.mp hmem)
    exact absurd hb (by omega)
  · exact add_loc_mem_get_actions.mpr (mem_added_to_db2.mpr ⟨hm, hlt⟩)
  · intro hmem
    obtain ⟨-, hb⟩ := mem_deleted_from_db1.mp (del_rem_mem_get_actions.mp hmem)
    exact absurd hb (by omega)
  · exact del_rem_mem_get_actions.mpr (mem_deleted_from_db1.mpr ⟨hm, hle⟩)
  · intro hmem
    obtain ⟨-, hb⟩ := mem_added_to_db2.mp (add_loc_mem_get_actions.mp hmem)
    exact absurd hb (by omega)

/-- Witness for C2 on concrete stores: a local-only record newer than
baseline 3 is classified `A_ADD_REM`. -/
theorem claim_C2_witness :
    (A_ADD_REM, sample_new.handle, sample_new.cls, some sample_new, none)
      ∈ get_actions [sample_new] [] 3 := by
  have h := claim_C2 [sample_new] ([] : List Obj) 3 sample_new
  exact ((h.1 (by decide)).1 (by decide)).1

/-- C8: when the diff of the two stores is empty (no changed pairs and
no one-sided records), the produced action list is empty, whatever the
baseline value is. -/
theorem claim_C8 (db1 db2 : List Obj) (t : Nat)
    (h0 : differences db1 db2 = [])
    (h1 : missing_from_db1 db1 db2 = [])
    (h2 : missing_from_db2 db1 db2 = []) :
    get_actions db1 db2 t = [] := by
  simp [get_actions, modified_in_both, modified_in_db1, modified_in_db2,
    added_to_db1, added_to_db2, deleted_from_db1, deleted_from_db2,
    h0, h1, h2]

/-- Witness for C8 on concrete identical stores and an arbitrary
baseline. -/
theorem claim_C8_witness : get_actions [sample_wit] [sample_wit] 42 = [] :=
  claim_C8 [sample_wit] [sample_wit] 42 (by decide) (by decide) (by decide)

/-- C9 (implicit): a changed pair whose two timestamps are both at or
below the baseline — a case absent from the spec's table — is still
classified as a conflict (`A_MRG_REM`), because `modified_in_both` is a
set difference rather than the condition "both timestamps above the
baseline". -/
theorem claim_C9 (db1 db2 : List Obj) (t : Nat) (o1 o2 : Obj)
    (hd : (o1, o2) ∈ differences db1 db2)
    (h1 : o1.change ≤ t) (h2 : o2.change ≤ t) :
    (A_MRG_REM, o1.handle, o1.cls, some o1, some o2)
      ∈ get_actions db1 db2 t := by
  refine mrg_mem_get_actions.mpr (mem_modified_in_both.mpr ⟨hd, ?_, ?_⟩)
  · simp; omega
  · simp; omega

/-- Witness for C9 on concrete stores: both sides of the changed pair are
older than baseline 10, and the pair is still merged. -/
theorem claim_C9_witness :
    (A_MRG_REM, sample_loc.handle, sample_loc.cls, some sample_loc,
      some sample_rem) ∈ get_actions [sample_loc] [sample_rem] 10 :=
  claim_C9 [sample_loc] [sample_rem] 10 sample_loc sample_rem
    (by decide) (by decide) (by decide)

/-- Counterexample to C3 as stated: the claim says the heuristic baseline
is computed *only when no persisted baseline is supplied*, but a
supplied persisted baseline of 0 also triggers the heuristic (the
policy is "supplied **and non-zero** → verbatim, otherwise heuristic"):
with a store pair whose heuristic baseline is 5, supplying the
persisted baseline 0 yields the heuristic value 5, not the supplied
value. -/
theorem claim_C3_counterexample :
    resolve_baseline (some 0) [sample_wit] [sample_wit]
        = get_latest_common_timestamp [sample_wit] [sample_wit] ∧
      get_latest_common_timestamp [sample_wit] [sample_wit] = 5 ∧
      resolve_baseline (some 0) [sample_wit] [sample_wit] ≠ 0 := by decide

/-- C3 (amended): a supplied non-zero persisted baseline is used
verbatim; the heuristic baseline is computed from the stores' content
exactly when no persisted baseline is supplied or the supplied value is
zero. -/
theorem claim_C3 (p : Option Nat) (db1 db2 : List Obj) :
    (∀ u, p = some u → u ≠ 0 → resolve_baseline p db1 db2 = u) ∧
    (p = none ∨ p = some 0 →
      resolve_baseline p db1 db2 = get_latest_common_timestamp db1 db2) := by
  constructor
  · rintro u rfl hu
    simp [resolve_baseline, hu]
  · rintro (rfl | rfl) <;> simp [resolve_baseline]

/-- Witness for C3: a supplied baseline 7 is used verbatim, and an
absent baseline falls back to the heuristic. -/
theorem claim_C3_witness :
    resolve_baseline (some 7) [sample_wit] [sample_wit] = 7 ∧
    resolve_baseline none [sample_wit] [sample_wit]
      = get_latest_common_timestamp [sample_wit] [sample_wit] :=
  ⟨(claim_C3 (some 7) [sample_wit] [sample_wit]).1 7 rfl (by decide),
    (claim_C3 none [sample_wit] [sample_wit]).2 (Or.inl rfl)⟩

theorem contains_iff {α : Type} [DecidableEq α] {l : List α} {a : α} :
    l.contains a = true ↔ a ∈ l := by
  simp [List.contains_eq_any_beq, List.any_eq_true, eq_comm]

theorem same_handles_eq_nil_of_no_witness (db1 db2 : List Obj)
    (hw : ∀ o ∈ db1, find? db2 o.handle ≠ some o) (c : String) :
    same_handles db1 db2 c = [] := by
  rw [same_handles, List.filter_eq_nil_iff]
  intro h hmem
  simp only [class_handles, List.mem_map, List.mem_filter, beq_iff_eq] at hmem
  obtain ⟨o, ⟨ho1, hoc⟩, rfl⟩ := hmem
  simp only [Bool.and_eq_true, Bool.not_eq_true', not_and]
  intro hm hd
  cases hfind : find? db2 o.handle with
  | none =>
    have hin : o.handle ∈ missing_handles db1 db2 c := by
      simp only [missing_handles, List.mem_map, List.mem_filter, beq_iff_eq]
      exact ⟨o, ⟨mem_missing_from_db2.mpr ⟨ho1, hfind⟩, hoc⟩, rfl⟩
    rw [contains_iff.mpr hin] at hm
    exact absurd hm (by simp)
  | some o2 =>
    have hne : o ≠ o2 := fun he => hw o ho1 (hfind.trans (congrArg some he.symm))
    have hin : o.handle ∈ different_handles db1 db2 c := by
      simp only [different_handles, List.mem_map, List.mem_filter, beq_iff_eq]
      exact ⟨(o, o2), ⟨mem_differences.mpr ⟨ho1, hfind, hne⟩, hoc⟩, rfl⟩
    rw [contains_iff.mpr hin] at hd
    exact absurd hd (by simp)

theorem baseline_zero_of_no_witness (db1 db2 : List Obj)
    (hw : ∀ o ∈ db1, find? db2 o.handle ≠ some o) :
    get_latest_common_timestamp db1 db2 = 0 := by
  have hnone : ∀ c, _get_latest_common_timestamp db1 db2 c = none := by
    intro c
    rw [_get_latest_common_timestamp, same_handles_eq_nil_of_no_witness db1 db2 hw c]
    rfl
  rw [get_latest_common_timestamp,
    List.map_congr_left (fun c _ => by rw [hnone c]; rfl : ∀ c ∈ OBJ_LST,
      (_get_latest_common_timestamp db1 db2 c).getD 0 = (fun _ => 0) c)]
  rfl

theorem get_actions_inversion {db1 db2 : List Obj} {t : Nat} {a : SyncAction}
    (ha : a ∈ get_actions db1 db2 t) :
    (∃ p ∈ modified_in_both db1 db2 t,
      a = (A_MRG_REM, p.1.handle, p.1.cls, some p.1, some p.2)) ∨
    (∃ o ∈ added_to_db1 db1 db2 t,
      a = (A_ADD_REM, o.handle, o.cls, some o, none)) ∨
    (∃ o ∈ added_to_db2 db1 db2 t,
      a = (A_ADD_LOC, o.handle, o.cls, none, some o)) ∨
    (∃ o ∈ deleted_from_db1 db1 db2 t,
      a = (A_DEL_REM, o.handle, o.cls, none, some o)) ∨
    (∃ o ∈ deleted_from_db2 db1 db2 t,
      a = (A_DEL_LOC, o.handle, o.cls, some o, none)) ∨
    (∃ p ∈ modified_in_db1 db1 db2 t,
      a = (A_UPD_REM, p.1.handle, p.1.cls, some p.1, some p.2)) ∨
    (∃ p ∈ modified_in_db2 db1 db2 t,
      a = (A_UPD_LOC, p.1.handle, p.1.cls, some p.1, some p.2)) := by
  simp only [get_actions, List.mem_append, List.mem_map] at ha
  rcases ha with (((((h | h) | h) | h) | h) | h) | h
  · obtain ⟨p, hp, he⟩ := h
    exact Or.inl ⟨p, hp, he.symm⟩
  · obtain ⟨o, ho, he⟩ := h
    exact Or.inr (Or.inl ⟨o, ho, he.symm⟩)
  · obtain ⟨o, ho, he⟩ := h
    exact Or.inr (Or.inr (Or.inl ⟨o, ho, he.symm⟩))
  · obtain ⟨o, ho, he⟩ := h
    exact Or.inr (Or.inr (Or.inr (Or.inl ⟨o, ho, he.symm⟩)))
  · obtain ⟨o, ho, he⟩ := h
    exact Or.inr (Or.inr (Or.inr (Or.inr (Or.inl ⟨o, ho, he.symm⟩))))
  · obtain ⟨p, hp, he⟩ := h
    exact Or.inr (Or.inr (Or.inr (Or.inr (Or.inr (Or.inl ⟨p, hp, he.symm⟩)))))
  · obtain ⟨p, hp, he⟩ := h
    exact Or.inr (Or.inr (Or.inr (Or.inr (Or.inr (Or.inr ⟨p, hp, he.symm⟩)))))

/-- Counterexample to C4 as stated: with no identical witnesses the
baseline is 0, but a record present in only one store whose
`changed_at` is 0 is classified as a deletion (`A_DEL_LOC`), not as an
addition, because the addition test is the strict `change > 0`. -/
theorem claim_C4_counterexample :
    get_latest_common_timestamp [sample_stale] [] = 0 ∧
    sample_stale ∈ missing_from_db2 [sample_stale] [] ∧
    (A_DEL_LOC, sample_stale.handle, sample_stale.cls, some sample_stale, none)
      ∈ sync_actions [sample_stale] [] ∧
    (A_ADD_REM, sample_stale.handle, sample_stale.cls, some sample_stale, none)
      ∉ sync_actions [sample_stale] [] := by decide

/-- C4 (amended): with no identical witness records (and no persisted
baseline) the heuristic baseline resolves to 0, and under that baseline
every record present in only one store whose `changed_at` is strictly
positive is classified as an addition (`A_ADD_REM` / `A_ADD_LOC`) and
never as a deletion; only a record with `changed_at = 0` can be
classified as a deletion. -/
theorem claim_C4 (db1 db2 : List Obj)
    (hw : ∀ o ∈ db1, find? db2 o.handle ≠ some o) :
    get_latest_common_timestamp db1 db2 = 0 ∧
    (∀ o ∈ missing_from_db2 db1 db2, 0 < o.change →
      (A_ADD_REM, o.handle, o.cls, some o, none) ∈ sync_actions db1 db2 ∧
      (A_DEL_LOC, o.handle, o.cls, some o, none) ∉ sync_actions db1 db2) ∧
    (∀ o ∈ missing_from_db1 db1 db2, 0 < o.change →
      (A_ADD_LOC, o.handle, o.cls, none, some o) ∈ sync_actions db1 db2 ∧
      (A_DEL_REM, o.handle, o.cls, none, some o) ∉ sync_actions db1 db2) ∧
    (∀ a ∈ sync_actions db1 db2, a.1 = A_DEL_LOC ∨ a.1 = A_DEL_REM →
      ∃ o, (a.2.2.2.1 = some o ∨ a.2.2.2.2 = some o) ∧ o.change = 0) := by
  have hb := baseline_zero_of_no_witness db1 db2 hw
  have hs : sync_actions db1 db2 = get_actions db1 db2 0 := by
    rw [sync_actions, hb]
  rw [hs]
  refine ⟨hb, ?_, ?_, ?_⟩
  · intro o hm h0
    refine ⟨add_rem_mem_get_actions.mpr (mem_added_to_db1.mpr ⟨hm, h0⟩), ?_⟩
    intro hmem
    obtain ⟨-, hle⟩ := mem_deleted_from_db2.mp (del_loc_mem_get_actions.mp hmem)
    omega
  · intro o hm h0
    refine ⟨add_loc_mem_get_actions.mpr (mem_added_to_db2.mpr ⟨hm, h0⟩), ?_⟩
    intro hmem
    obtain ⟨-, hle⟩ := mem_deleted_from_db1.mp (del_rem_mem_get_actions.mp hmem)
    omega
  · intro a ha htag
    rcases get_actions_inversion ha with h | h | h | h | h | h | h
    · obtain ⟨p, hp, rfl⟩ := h
      simp [A_MRG_REM, A_DEL_LOC, A_DEL_REM] at htag
    · obtain ⟨o, ho, rfl⟩ := h
      simp [A_ADD_REM, A_DEL_LOC, A_DEL_REM] at htag
    · obtain ⟨o, ho, rfl⟩ := h
      simp [A_ADD_LOC, A_DEL_LOC, A_DEL_REM] at htag
    · obtain ⟨o, ho, rfl⟩ := h
      obtain ⟨-, hle⟩ := mem_deleted_from_db1.mp ho
      exact ⟨o, Or.inr rfl, by omega⟩
    · obtain ⟨o, ho, rfl⟩ := h
      obtain ⟨-, hle⟩ := mem_deleted_from_db2.mp ho
      exact ⟨o, Or.inl rfl, by omega⟩
    · obtain ⟨p, hp, rfl⟩ := h
      simp [A_UPD_REM, A_DEL_LOC, A_DEL_REM] at htag
    · obtain ⟨p, hp, rfl⟩ := h
      simp [A_UPD_LOC, A_DEL_LOC, A_DEL_REM] at htag

/-- Witness for C4: a store pair with a single local-only record and no
witnesses resolves to baseline 0 and classifies the record as
`A_ADD_REM`. -/
theorem claim_C4_witness :
    get_latest_common_timestamp [sample_new] [] = 0 ∧
    (A_ADD_REM, sample_new.handle, sample_new.cls, some sample_new, none)
      ∈ sync_actions [sample_new] [] := by
  have h := claim_C4 [sample_new] [] (by decide)
  exact ⟨h.1, (h.2.1 sample_new (by decide) (by decide)).1⟩

theorem find?_eq_some_self {db : List Obj} {o : Obj}
    (hmem : o ∈ db) (hnd : (db.map Obj.handle).Nodup) :
    find? db o.handle = some o := by
  induction db with
  | nil => cases hmem
  | cons a l ih =>
    rw [List.map_cons, List.nodup_cons] at hnd
    rcases List.mem_cons.mp hmem with rfl | hmem'
    · simp [find?]
    · have hne : (a.handle == o.handle) = false := by
        refine beq_eq_false_iff_ne.mpr fun he => hnd.1 ?_
        exact he ▸ List.mem_map_of_mem Obj.handle hmem'
      rw [find?, List.find?_cons_of_neg _ (by simp [hne])]
      exact ih hmem' hnd.2

theorem handle_inj {db : List Obj} (hnd : (db.map Obj.handle).Nodup)
    {o o' : Obj} (ho : o ∈ db) (ho' : o' ∈ db)
    (hh : o.handle = o'.handle) : o = o' := by
  have h1 := find?_eq_some_self ho hnd
  have h2 := find?_eq_some_self ho' hnd
  rw [hh] at h1
  exact Option.some.inj (h1.symm.trans h2)

theorem same_handles_eq_witness_handles (db1 db2 : List Obj)
    (hnd : (db1.map Obj.handle).Nodup) (c : String) :
    same_handles db1 db2 c = (witnesses db1 db2 c).map Obj.handle := by
  rw [same_handles, class_handles, List.filter_map, witnesses,
    List.filter_filter]
  congr 1
  refine List.filter_congr fun o ho => ?_
  by_cases hc : o.cls = c
  · simp only [Function.comp_apply, hc, beq_self_eq_true, Bool.and_true,
      Bool.true_and]
    rcases hfind : find? db2 o.handle with _ | o2
    · have hin : o.handle ∈ missing_handles db1 db2 c := by
        simp only [missing_handles, List.mem_map, List.mem_filter, beq_iff_eq]
        exact ⟨o, ⟨mem_missing_from_db2.mpr ⟨ho, hfind⟩, hc⟩, rfl⟩
      simp [hin, hfind]
    · by_cases ho2 : o2 = o
      · rw [ho2] at hfind
        have hm : o.handle ∉ missing_handles db1 db2 c := by
          intro hcon
          simp only [missing_handles, List.mem_map, List.mem_filter,
            beq_iff_eq] at hcon
          obtain ⟨o', ⟨hmm, -⟩, hh⟩ := hcon
          obtain ⟨-, hfn⟩ := mem_missing_from_db2.mp hmm
          rw [hh, hfind] at hfn
          exact absurd hfn (by simp)
        have hd : o.handle ∉ different_handles db1 db2 c := by
          intro hcon
          simp only [different_handles, List.mem_map, List.mem_filter,
            beq_iff_eq] at hcon
          obtain ⟨⟨p1, p2⟩, ⟨hdm, -⟩, hh⟩ := hcon
          obtain ⟨hp1, hpf, hpne⟩ := mem_differences.mp hdm
          have hpo : p1 = o := handle_inj hnd hp1 ho hh
          subst hpo
          rw [hfind] at hpf
          exact hpne (Option.some.inj hpf)
        simp [hm, hd, hfind, ho2]
      · have hin : o.handle ∈ different_handles db1 db2 c := by
          simp only [different_handles, List.mem_map, List.mem_filter,
            beq_iff_eq]
          refine ⟨(o, o2), ⟨mem_differences.mpr ⟨ho, hfind, ?_⟩, hc⟩, rfl⟩
          exact fun he => ho2 he.symm
        simp [hin, hfind, ho2]
  · have hcb : (o.cls == c) = false := beq_eq_false_iff_ne.mpr hc
    simp [hcb]

theorem foldl_lookup_eq {db1 : List Obj} (hnd : (db1.map Obj.handle).Nodup)
    (ws : List Obj) (hws : ∀ o ∈ ws, o ∈ db1) (acc : Nat) :
    (ws.map Obj.handle).foldl
        (fun d h => max d (((find? db1 h).map Obj.change).getD 0)) acc
      = (ws.map Obj.change).foldl max acc := by
  induction ws generalizing acc with
  | nil => rfl
  | cons a l ih =>
    simp only [List.map_cons, List.foldl_cons]
    rw [find?_eq_some_self (hws a (List.mem_cons_self a l)) hnd]
    exact ih (fun o ho => hws o (List.mem_cons_of_mem a ho)) _

theorem type_baseline_eq (db1 db2 : List Obj)
    (hnd : (db1.map Obj.handle).Nodup) (c : String) :
    (_get_latest_common_timestamp db1 db2 c).getD 0
      = ((witnesses db1 db2 c).map Obj.change).foldl max 0 := by
  have hsame := same_handles_eq_witness_handles db1 db2 hnd c
  simp only [_get_latest_common_timestamp, hsame]
  by_cases hw : witnesses db1 db2 c = []
  · simp [hw]
  · rw [if_neg (by simp [hw])]
    simp only [Option.getD_some]
    exact foldl_lookup_eq hnd (witnesses db1 db2 c)
      (fun o ho => (List.mem_filter.mp ho).1) 0

/-- C5: the heuristic baseline computed by
`get_latest_common_timestamp` equals the maximum, over the ten tracked
object types, of the per-type maximum `change` among records of that
type present in both stores with identical content, a type with no such
witness contributing nothing; stated for a well-formed local store
(no duplicate handles). -/
theorem claim_C5 (db1 db2 : List Obj) (hnd : (db1.map Obj.handle).Nodup) :
    get_latest_common_timestamp db1 db2 = witness_baseline db1 db2 := by
  rw [get_latest_common_timestamp, witness_baseline,
    List.map_congr_left fun c _ => type_baseline_eq db1 db2 hnd c]

/-- Witness for C5 on a concrete store pair with one witness record and
one local-only record: both computations give 5. -/
theorem claim_C5_witness :
    get_latest_common_timestamp [sample_wit, sample_new] [sample_wit]
        = witness_baseline [sample_wit, sample_new] [sample_wit] ∧
      witness_baseline [sample_wit, sample_new] [sample_wit] = 5 :=
  ⟨claim_C5 [sample_wit, sample_new] [sample_wit] (by decide), by decide⟩

theorem find?_replace (db : List Obj) (o : Obj)
    (hany : db.any (fun x => x.handle == o.handle) = true) :
    find? (db.map fun x => if x.handle == o.handle then o else x) o.handle
      = some o := by
  induction db with
  | nil => simp at hany
  | cons a l ih =>
    simp only [List.any_cons, Bool.or_eq_true] at hany
    simp only [List.map_cons]
    by_cases hh : (a.handle == o.handle) = true
    · rw [if_pos hh, find?, List.find?_cons_of_pos _ (by simp)]
    · rw [if_neg hh, find?, List.find?_cons_of_neg _ (by simpa using hh)]
      exact ih (hany.resolve_left hh)

theorem find?_append_absent (db : List Obj) (o : Obj)
    (hany : db.any (fun x => x.handle == o.handle) = false) :
    find? (db ++ [o]) o.handle = some o := by
  induction db with
  | nil => rw [List.nil_append, find?, List.find?_cons_of_pos _ (by simp)]
  | cons a l ih =>
    rw [List.any_cons] at hany
    have h1 : (a.handle == o.handle) = false := by
      rcases Bool.or_eq_false_iff.mp hany with ⟨h, -⟩
      exact h
    rw [List.cons_append, find?, List.find?_cons_of_neg _ (by simp [h1])]
    exact ih (Bool.or_eq_false_iff.mp hany).2

theorem find?_db_commit (db : List Obj) (o : Obj) :
    find? (db_commit db o) o.handle = some o := by
  rw [db_commit]
  split
  · exact find?_replace db o (by assumption)
  · rename_i hn
    exact find?_append_absent db o (Bool.eq_false_iff.mpr hn)

theorem commit_action_mrg (h c : String) (o1 o2 : Obj)
    (dbs : List Obj × List Obj) :
    commit_action (A_MRG_REM, h, c, some o1, some o2) dbs
      = (db_commit dbs.1 (merged_code o1 o2),
         db_commit dbs.2 (merged_code o1 o2)) := by
  simp [commit_action, A_MRG_REM, A_DEL_LOC, A_DEL_REM, A_ADD_LOC, A_ADD_REM,
    A_UPD_LOC, A_UPD_REM]

theorem commit_action_one_sided (a : SyncAction) (dbs : List Obj × List Obj)
    (hne : a.1 ≠ A_MRG_REM) :
    (commit_action a dbs).1 = dbs.1 ∨ (commit_action a dbs).2 = dbs.2 := by
  rcases a with ⟨typ, h, c, o1, o2⟩
  simp only at hne
  simp only [commit_action]
  split_ifs with h1 h2 h3 h4 h5 h6
  · exact Or.inr rfl
  · exact Or.inl rfl
  · cases o2 with
    | none => exact Or.inl rfl
    | some o => exact Or.inr rfl
  · cases o1 with
    | none => exact Or.inl rfl
    | some o => exact Or.inl rfl
  · cases o2 with
    | none => exact Or.inl rfl
    | some o => exact Or.inr rfl
  · cases o1 with
    | none => exact Or.inl rfl
    | some o => exact Or.inl rfl
  · exact Or.inl rfl

/-- Counterexample to C6 as stated: the claim (and §4.4 of the spec)
says the merge "starts from the remote record as the base, strips *its*
display-identifier field"; the code instead strips the `gramps_id` of
the **local** copy before merging it into the remote base, so the
record actually written to both stores keeps the remote display id
(`I002`), while the claim's procedure would yield the local one
(`I001`). -/
theorem claim_C6_counterexample :
    (merged_code sample_loc sample_rem).gramps_id = some "I002" ∧
    (merged_spec sample_loc sample_rem).gramps_id = some "I001" ∧
    find? (commit_action (A_MRG_REM, "h1", "Person", some sample_loc,
        some sample_rem) ([sample_loc], [sample_rem])).1 "h1"
      = some (merged_code sample_loc sample_rem) ∧
    merged_code sample_loc sample_rem ≠ merged_spec sample_loc sample_rem := by
  decide

/-- C6 (amended): for a conflict action the deterministic merge starts
from the remote record as the base and merges in the *local* record
with its `gramps_id` stripped; the single merged record is written to
both stores under the same handle (the shared handle of the pair), both
stores hold that identical record afterwards, and the conflict merge is
the only action kind that writes to both stores from one action. -/
theorem claim_C6 (db1 db2 : List Obj) (h c : String) (o1 o2 : Obj)
    (hh : o1.handle = o2.handle) :
    commit_action (A_MRG_REM, h, c, some o1, some o2) (db1, db2)
        = (db_commit db1 (merged_code o1 o2),
           db_commit db2 (merged_code o1 o2)) ∧
    merged_code o1 o2 = Obj.merge o2 { o1 with gramps_id := none } ∧
    (merged_code o1 o2).handle = o2.handle ∧
    (merged_code o1 o2).handle = o1.handle ∧
    find? (commit_action (A_MRG_REM, h, c, some o1, some o2) (db1, db2)).1
        (merged_code o1 o2).handle = some (merged_code o1 o2) ∧
    find? (commit_action (A_MRG_REM, h, c, some o1, some o2) (db1, db2)).2
        (merged_code o1 o2).handle = some (merged_code o1 o2) ∧
    (∀ a : SyncAction, ∀ dbs : List Obj × List Obj, a.1 ≠ A_MRG_REM →
      (commit_action a dbs).1 = dbs.1 ∨ (commit_action a dbs).2 = dbs.2) := by
  have hca := commit_action_mrg h c o1 o2 (db1, db2)
  refine ⟨hca, rfl, rfl, hh.symm, ?_, ?_, commit_action_one_sided⟩
  · rw [hca]
    exact find?_db_commit db1 (merged_code o1 o2)
  · rw [hca]
    exact find?_db_commit db2 (merged_code o1 o2)

/-- Witness for C6: committing the conflict action for the concrete pair
leaves the identical merged record in both stores. -/
theorem claim_C6_witness :
    find? (commit_action (A_MRG_REM, "h1", "Person", some sample_loc,
        some sample_rem) ([sample_loc], [sample_rem])).1
        (merged_code sample_loc sample_rem).handle
      = some (merged_code sample_loc sample_rem) ∧
    find? (commit_action (A_MRG_REM, "h1", "Person", some sample_loc,
        some sample_rem) ([sample_loc], [sample_rem])).2
        (merged_code sample_loc sample_rem).handle
      = some (merged_code sample_loc sample_rem) := by
  have h := claim_C6 [sample_loc] [sample_rem] "h1" "Person"
    sample_loc sample_rem (by decide)
  exact ⟨h.2.2.2.2.1, h.2.2.2.2.2.1⟩

theorem commit_actions_run_none (fails : SyncAction → Bool) :
    ∀ (actions : List SyncAction) (dbs : List Obj × List Obj)
      (a : SyncAction), a ∈ actions → fails a = true →
      commit_actions_run fails actions dbs = none := by
  intro actions
  induction actions with
  | nil => intro dbs a ha _; cases ha
  | cons b l ih =>
    intro dbs a ha hf
    rcases List.mem_cons.mp ha with rfl | ha'
    · rw [commit_actions_run, if_pos hf]
    · rw [commit_actions_run]
      by_cases hb : fails b = true
      · rw [if_pos hb]
      · rw [if_neg hb]
        exact ih _ a ha' hf

theorem commit_actions_run_all_ok (fails : SyncAction → Bool) :
    ∀ (actions : List SyncAction) (dbs : List Obj × List Obj),
      (∀ a ∈ actions, fails a = false) →
      commit_actions_run fails actions dbs
        = some (commit_actions actions dbs) := by
  intro actions
  induction actions with
  | nil => intro dbs _; rfl
  | cons b l ih =>
    intro dbs h
    rw [commit_actions_run, if_neg (by simp [h b (List.mem_cons_self b l)])]
    exact ih _ (fun a ha => h a (List.mem_cons_of_mem b ha))

/-- C7: applying an action batch through the guarded transaction pair is
atomic: if any action in the batch fails, both stores are left exactly
as they were before the batch; if no action fails, the result is the
sequential application of every action. -/
theorem claim_C7 (fails : SyncAction → Bool) (actions : List SyncAction)
    (dbs : List Obj × List Obj) :
    ((∃ a ∈ actions, fails a = true) →
      commit_with_txn fails actions dbs = dbs) ∧
    ((∀ a ∈ actions, fails a = false) →
      commit_with_txn fails actions dbs = commit_actions actions dbs) := by
  constructor
  · rintro ⟨a, ha, hf⟩
    rw [commit_with_txn, commit_actions_run_none fails actions dbs a ha hf]
  · intro h
    rw [commit_with_txn, commit_actions_run_all_ok fails actions dbs h]

/-- Witness for C7: with the failing oracle the batch leaves the stores
untouched although its first action would have applied; with no failure
the whole batch applies. -/
theorem claim_C7_witness :
    commit_with_txn sample_fails sample_batch ([sample_stale, sample_new], [])
        = ([sample_stale, sample_new], []) ∧
    commit_with_txn (fun _ => false) sample_batch
        ([sample_stale, sample_new], [])
      = commit_actions sample_batch ([sample_stale, sample_new], []) := by
  constructor
  · exact (claim_C7 sample_fails sample_batch _).1
      ⟨(A_DEL_LOC, "h0", "Person", some sample_stale, none),
        by decide, by decide⟩
  · exact (claim_C7 (fun _ => false) sample_batch _).2 fun a _ => rfl

/-- C10: `download_xml` succeeds directly on a good response; a non-401
HTTP error is raised without retry; a 401 triggers a token refresh and
exactly one retry without further retries; and any HTTP error on that
retry, 401 included, is raised to the caller. -/
theorem claim_C10 (oracle : Nat → DlResult) (tok : Nat) :
    (∀ p, oracle tok = .ok p →
      download_xml oracle tok true = .ok (p, tok)) ∧
    (∀ code, oracle tok = .httpError code → code ≠ 401 →
      download_xml oracle tok true = .error code) ∧
    (oracle tok = .httpError 401 →
      download_xml oracle tok true = download_xml_noretry oracle (tok + 1)) ∧
    (∀ code, oracle tok = .httpError 401 →
      oracle (tok + 1) = .httpError code →
      download_xml oracle tok true = .error code) := by
  refine ⟨?_, ?_, ?_, ?_⟩
  · intro p h
    simp [download_xml, h]
  · intro code h hne
    simp [download_xml, h, hne]
  · intro h
    simp [download_xml, h]
  · intro code h h2
    simp [download_xml, download_xml_noretry, h, h2]

/-- Witness for C10: against the sample oracle (401 on the initial
token, success afterwards) the download succeeds on the retry with the
refreshed token. -/
theorem claim_C10_witness :
    download_xml sample_oracle 0 true = Except.ok ("remote.gramps", 1) := by
  have h := (claim_C10 sample_oracle 0).2.2.1 (by decide)
  rw [h]
  rfl
